import Mathlib

/-!
Shallow embedding of the nfse-xml-analyzer core: the org-unit registry and
tax-id resolver (`src/frontend/src/lib/filiais.ts`), the document ledger
store (`src/frontend/src/lib/store.ts`), and the dashboard progress
computation (`src/frontend/src/app/page.tsx`), together with theorems
settling the claims about them.
-/

namespace NfseAnalyzer

/-! ## Org-unit registry (`filiais.ts`) -/

inductive FilialTipo
  | matriz | filial | upa | aps | hospital | escritorio | clinica
deriving DecidableEq, Repr

structure Filial where
  codigo : Nat
  nome : String
  cnpj : String
  cnpjFormatado : String
  municipio : String
  uf : String
  tipo : FilialTipo
deriving DecidableEq, Repr

def CNPJ_MATRIZ : String := "11858570000133"

def FILIAIS : List Filial := [
  ⟨1, "IGH MATRIZ", "11858570000133", "11.858.570/0001-33", "Salvador", "BA", .matriz⟩,
  ⟨2, "Hospital de Capim Grosso", "11858570000303", "11.858.570/0003-03", "Capim Grosso", "BA", .hospital⟩,
  ⟨3, "HMI - Hospital Materno-Infantil", "11858570000214", "11.858.570/0002-14", "Goiânia", "GO", .hospital⟩,
  ⟨4, "HEAPA - Hospital Estadual de Aparecida de Goiânia", "11858570000486", "11.858.570/0004-86", "Aparecida de Goiânia", "GO", .hospital⟩,
  ⟨5, "Unidade Goiânia 5", "11858570000567", "11.858.570/0005-67", "Goiânia", "GO", .filial⟩,
  ⟨6, "Hospital de Casimiro de Abreu", "11858570000648", "11.858.570/0006-48", "Casimiro de Abreu", "RJ", .hospital⟩,
  ⟨7, "UPA Cabula", "11858570001024", "11.858.570/0010-24", "Salvador", "BA", .upa⟩,
  ⟨8, "UPA Camaçari", "11858570000729", "11.858.570/0007-29", "Camaçari", "BA", .upa⟩,
  ⟨9, "Hospital de Porto Seguro", "11858570000800", "11.858.570/0008-00", "Porto Seguro", "BA", .hospital⟩,
  ⟨10, "HRJL - Hospital Regional Justino Luz", "11858570000990", "11.858.570/0009-90", "Picos", "PI", .hospital⟩,
  ⟨11, "Cachoeiras de Macacu", "11858570000133", "11.858.570/0001-33", "Cachoeiras de Macacu", "RJ", .filial⟩,
  ⟨12, "UPA Caxias do Sul", "11858570001105", "11.858.570/0011-05", "Salvador", "BA", .upa⟩,
  ⟨13, "HIMABA", "11858570001296", "11.858.570/0012-96", "Vila Velha", "ES", .hospital⟩,
  ⟨14, "MJMMN - Maternidade José Maria de Magalhães Neto", "11858570001377", "11.858.570/0013-77", "Salvador", "BA", .hospital⟩,
  ⟨15, "Contagem", "11858570001458", "11.858.570/0014-58", "Contagem", "MG", .filial⟩,
  ⟨16, "Hospital de Mairi", "11858570001610", "11.858.570/0016-10", "Mairi", "BA", .hospital⟩,
  ⟨17, "Barra", "11858570001539", "11.858.570/0015-39", "Barra", "BA", .filial⟩,
  ⟨18, "UPA Boca do Rio", "11858570000133", "11.858.570/0001-33", "Salvador", "BA", .upa⟩,
  ⟨19, "UPA Pernambués", "11858570001881", "11.858.570/0018-81", "Salvador", "BA", .upa⟩,
  ⟨20, "Hospital Pituba", "11858570002268", "11.858.570/0022-68", "Salvador", "BA", .hospital⟩,
  ⟨22, "UPA São Cristóvão", "11858570002853", "11.858.570/0028-53", "Salvador", "BA", .upa⟩,
  ⟨23, "APS Camaçari", "11858570000133", "11.858.570/0001-33", "Camaçari", "BA", .aps⟩,
  ⟨24, "Hospital Santa Maria", "11858570001962", "11.858.570/0019-62", "Goiânia", "GO", .hospital⟩,
  ⟨25, "APS Vitória da Conquista", "11858570000133", "11.858.570/0001-33", "Vitória da Conquista", "BA", .aps⟩,
  ⟨26, "Escritório Regional de Goiás", "11858570001709", "11.858.570/0017-09", "Goiânia", "GO", .escritorio⟩,
  ⟨28, "APS Natal", "11858570000133", "11.858.570/0001-33", "Natal", "RN", .aps⟩,
  ⟨32, "UPA Paripe", "11858570002772", "11.858.570/0027-72", "Salvador", "BA", .upa⟩,
  ⟨33, "UPA Pirajá", "11858570000133", "11.858.570/0001-33", "Salvador", "BA", .upa⟩,
  ⟨34, "APS Aracaju", "11858570000133", "11.858.570/0001-33", "Aracaju", "SE", .aps⟩,
  ⟨35, "Hospital de Anápolis", "11858570000133", "11.858.570/0001-33", "Anápolis", "GO", .hospital⟩,
  ⟨36, "Hospital Regional de Eunápolis", "11858570002187", "11.858.570/0021-87", "Eunápolis", "BA", .hospital⟩,
  ⟨37, "Nefrologia", "11858570002004", "11.858.570/0020-04", "Salvador", "BA", .clinica⟩,
  ⟨38, "Maternidade Maria de Lourdes Santana Nogueira", "11858570002349", "11.858.570/0023-49", "Aracaju", "SE", .hospital⟩,
  ⟨39, "IGH ADM", "11858570002691", "11.858.570/0026-91", "Salvador", "BA", .escritorio⟩,
  ⟨40, "Clínica IGH Healthcare", "11858570002500", "11.858.570/0025-00", "Salvador", "BA", .clinica⟩]

/-- `Map.set` of the JS `Map`: overwrite in place when the key exists,
append otherwise. -/
def mapSet (m : List (String × Filial)) (k : String) (v : Filial) :
    List (String × Filial) :=
  if m.any (fun p => p.1 == k) then
    m.map (fun p => if p.1 == k then (k, v) else p)
  else m ++ [(k, v)]

/-- `Map.get` of the JS `Map` (keys are kept unique by `mapSet`). -/
def mapGet (m : List (String × Filial)) (k : String) : Option Filial :=
  (m.find? (fun p => p.1 == k)).map (fun p => p.2)

/-- The index construction of `filiais.ts` over an arbitrary catalog: a
unit's tax id is admitted only if it is not the headquarters' id, or the
unit is the headquarters (code 1). -/
def buildIndexOf (catalog : List Filial) : List (String × Filial) :=
  catalog.foldl
    (fun m f => if f.cnpj ≠ CNPJ_MATRIZ ∨ f.codigo = 1 then mapSet m f.cnpj f else m) []

def cnpjToFilialMap : List (String × Filial) := buildIndexOf FILIAIS

/-- `normalizeCnpj`: empty for null/undefined/empty input, otherwise keep
only digit characters. -/
def normalizeCnpj (cnpj : Option String) : String :=
  match cnpj with
  | none => ""
  | some s => if s = "" then "" else String.mk (s.data.filter Char.isDigit)

/-- `getFilialByCnpj`: normalize, then look up in the index; `none` when
the normalized id is empty or not in the index. -/
def getFilialByCnpj (cnpjDest : Option String) : Option Filial :=
  let n := normalizeCnpj cnpjDest
  if n = "" then none else mapGet cnpjToFilialMap n

/-- `getMatriz` generalized over the catalog: the source returns
`FILIAIS.find((f) => f.codigo === 1)!`; the non-null assertion is modelled
as an `Option`. -/
def getMatrizOf (catalog : List Filial) : Option Filial :=
  catalog.find? (fun f => f.codigo == 1)

def getMatriz : Option Filial := getMatrizOf FILIAIS

/-! ## Document ledger store (`store.ts`)

Timestamps (`new Date()`) are modelled as an explicit `Nat` argument and
the `Math.random`-based id generator as explicit id arguments: both are
the only sources of nondeterminism in the store's mutations. -/

inductive NoteLaunchStatus
  | pending | launched | rejected
deriving DecidableEq, Repr

structure NoteLaunchInfo where
  status : NoteLaunchStatus
  launchedAt : Option Nat
  launchedBy : Option String
  rejectedAt : Option Nat
  rejectedBy : Option String
  rejectionReason : Option String
  obs : Option String
deriving DecidableEq, Repr

/-- The `notes` field of `NoteLaunchInfo` (operator remarks) is called
`obs` here to avoid clashing with the store's `notes` collection. -/
def NoteLaunchInfo.fresh (st : NoteLaunchStatus) : NoteLaunchInfo :=
  ⟨st, none, none, none, none, none, none⟩

structure NoteFilialInfo where
  codigo : Nat
  nome : String
  cnpj : String
  cnpjFormatado : String
  municipio : String
  uf : String
  tipo : FilialTipo
deriving DecidableEq, Repr

structure NFeParty where
  doc : Option String
  nome : Option String
  uf : Option String
  municipio : Option String
deriving DecidableEq, Repr

structure NFeTotals where
  vNF : Option Int
deriving DecidableEq, Repr

/-- The slice of `NFeExtractResponse` the store reads (`dest?.doc`,
`totals?.vNF`); everything else is opaque payload carried in `rest`. -/
structure NFeExtractResponse where
  dest : Option NFeParty
  totals : Option NFeTotals
  rest : String
deriving DecidableEq, Repr

/-- A processed note.  `launchInfo` is an `Option`: the store's own
`getPendingNotes` guards against `!n.launchInfo`, i.e. notes restored
from a persisted snapshot may lack the field. -/
structure ProcessedNote where
  id : String
  filename : String
  data : NFeExtractResponse
  processedAt : Nat
  launchInfo : Option NoteLaunchInfo
  filial : Option NoteFilialInfo
deriving DecidableEq, Repr

structure NotesState where
  notes : List ProcessedNote
  selectedNoteId : Option String
deriving DecidableEq, Repr

def NotesState.init : NotesState := ⟨[], none⟩

def Filial.toInfo (f : Filial) : NoteFilialInfo :=
  ⟨f.codigo, f.nome, f.cnpj, f.cnpjFormatado, f.municipio, f.uf, f.tipo⟩

/-- `identifyFilial`: resolve the buyer tax id; `null` when the note is
not from a cataloged unit. -/
def identifyFilial (destCnpj : Option String) : Option NoteFilialInfo :=
  (getFilialByCnpj destCnpj).map Filial.toInfo

/-- The note constructed by `addNote`/`addNotes` for one entry. -/
def mkNote (id filename : String) (data : NFeExtractResponse) (now : Nat) :
    ProcessedNote :=
  { id := id
    filename := filename
    data := data
    processedAt := now
    launchInfo := some (NoteLaunchInfo.fresh .pending)
    filial := identifyFilial (data.dest.bind (fun d => d.doc)) }

def addNote (s : NotesState) (filename : String) (data : NFeExtractResponse)
    (id : String) (now : Nat) : NotesState :=
  { s with notes := s.notes ++ [mkNote id filename data now] }

/-- One note per entry, in input order; the `Math.random` id generator
is modelled as the call-counter-to-id oracle `gen`. -/
def mkNotes (gen : Nat → String) (i : Nat)
    (entries : List (String × NFeExtractResponse)) (now : Nat) : List ProcessedNote :=
  match entries with
  | [] => []
  | e :: rest => mkNote (gen i) e.1 e.2 now :: mkNotes gen (i + 1) rest now

/-- `addNotes`: maps every entry to a fresh pending note and appends them
all, in input order. -/
def addNotes (s : NotesState) (entries : List (String × NFeExtractResponse))
    (gen : Nat → String) (now : Nat) : NotesState :=
  { s with notes := s.notes ++ mkNotes gen 0 entries now }

def removeNote (s : NotesState) (id : String) : NotesState :=
  { notes := s.notes.filter (fun n => n.id ≠ id)
    selectedNoteId := if s.selectedNoteId = some id then none else s.selectedNoteId }

def clearNotes (_s : NotesState) : NotesState := ⟨[], none⟩

def selectNote (s : NotesState) (id : Option String) : NotesState :=
  { s with selectedNoteId := id }

/-- The spread `{...n.launchInfo, ...}` over a possibly-missing record:
missing contributes no fields. -/
def spreadBase (li : Option NoteLaunchInfo) : NoteLaunchInfo :=
  li.getD (NoteLaunchInfo.fresh .pending)

/-- The updated record written by `markAsLaunched`: spread of the old
`launchInfo`, then the launch fields — rejection fields survive. -/
def launchUpdate (li : Option NoteLaunchInfo) (operatorName obs : Option String)
    (now : Nat) : NoteLaunchInfo :=
  { spreadBase li with
    status := .launched, launchedAt := some now, launchedBy := operatorName, obs := obs }

def markAsLaunched (s : NotesState) (id : String) (operatorName obs : Option String)
    (now : Nat) : NotesState :=
  { s with
    notes := s.notes.map (fun n =>
      if n.id = id then
        { n with launchInfo := some (launchUpdate n.launchInfo operatorName obs now) }
      else n) }

/-- The updated record written by `markAsRejected`: spread of the old
`launchInfo`, then the rejection fields — launch fields survive. -/
def rejectUpdate (li : Option NoteLaunchInfo) (reason : String)
    (operatorName : Option String) (now : Nat) : NoteLaunchInfo :=
  { spreadBase li with
    status := .rejected, rejectedAt := some now, rejectedBy := operatorName,
    rejectionReason := some reason }

def markAsRejected (s : NotesState) (id reason : String) (operatorName : Option String)
    (now : Nat) : NotesState :=
  { s with
    notes := s.notes.map (fun n =>
      if n.id = id then
        { n with launchInfo := some (rejectUpdate n.launchInfo reason operatorName now) }
      else n) }

def resetLaunchStatus (s : NotesState) (id : String) : NotesState :=
  { s with
    notes := s.notes.map (fun n =>
      if n.id = id then { n with launchInfo := some (NoteLaunchInfo.fresh .pending) }
      else n) }

/-- Status test used by the filtered getters (`n.launchInfo?.status === st`). -/
def ProcessedNote.statusIs (n : ProcessedNote) (st : NoteLaunchStatus) : Bool :=
  match n.launchInfo with
  | some li => li.status = st
  | none => false

def getPendingNotes (s : NotesState) : List ProcessedNote :=
  s.notes.filter (fun n => n.statusIs .pending || n.launchInfo.isNone)

def getLaunchedNotes (s : NotesState) : List ProcessedNote :=
  s.notes.filter (fun n => n.statusIs .launched)

def getRejectedNotes (s : NotesState) : List ProcessedNote :=
  s.notes.filter (fun n => n.statusIs .rejected)

/-! ## Dashboard progress (`page.tsx`) -/

/-- JS `Math.round`: round half toward positive infinity. -/
def jsRound (q : ℚ) : ℤ := ⌊q + 1 / 2⌋

/-- `progressPercentage` from the dashboard page: guarded by
`notes.length > 0`, else `0`. -/
def progressPercentage (s : NotesState) : ℤ :=
  if 0 < s.notes.length then
    jsRound (((getLaunchedNotes s).length : ℚ) / (s.notes.length : ℚ) * 100)
  else 0

/-! ## Derived predicates and fixtures used by the claims -/

/-- The headquarters record (code 1) of the compiled-in catalog. -/
def matrizUnit : Filial :=
  ⟨1, "IGH MATRIZ", "11858570000133", "11.858.570/0001-33", "Salvador", "BA", .matriz⟩

/-- Well-formed lifecycle record: exactly the fields matching the status
are populated (operator name and remarks are populated only when they
were supplied at the transition). -/
def wfInfo (li : NoteLaunchInfo) : Prop :=
  (li.status = .pending → li = NoteLaunchInfo.fresh .pending) ∧
  (li.status = .launched → li.launchedAt.isSome = true ∧ li.rejectedAt = none ∧
    li.rejectedBy = none ∧ li.rejectionReason = none) ∧
  (li.status = .rejected → li.rejectedAt.isSome = true ∧ li.rejectionReason.isSome = true ∧
    li.launchedAt = none ∧ li.launchedBy = none ∧ li.obs = none)

/-- A note is well-formed when its lifecycle record, if present, is. -/
def wfNote (n : ProcessedNote) : Prop :=
  ∀ li, n.launchInfo = some li → wfInfo li

/-- States reachable from the empty store.  `launch` and `reject` carry
the guard of the documented state machine: no direct Launched↔Rejected
edge — without that guard the spread `{...n.launchInfo}` retains the
stale fields of the previous status. -/
inductive Reachable : NotesState → Prop
  | init : Reachable NotesState.init
  | add (s : NotesState) (fn : String) (d : NFeExtractResponse) (id : String) (t : Nat) :
      Reachable s → Reachable (addNote s fn d id t)
  | addMany (s : NotesState) (entries : List (String × NFeExtractResponse))
      (gen : Nat → String) (t : Nat) :
      Reachable s → Reachable (addNotes s entries gen t)
  | launch (s : NotesState) (id : String) (op obs : Option String) (t : Nat) :
      Reachable s →
      (∀ n ∈ s.notes, n.id = id →
        n.launchInfo.map NoteLaunchInfo.status ≠ some .rejected) →
      Reachable (markAsLaunched s id op obs t)
  | reject (s : NotesState) (id reason : String) (op : Option String) (t : Nat) :
      Reachable s →
      (∀ n ∈ s.notes, n.id = id →
        n.launchInfo.map NoteLaunchInfo.status ≠ some .launched) →
      Reachable (markAsRejected s id reason op t)
  | reset (s : NotesState) (id : String) :
      Reachable s → Reachable (resetLaunchStatus s id)
  | drop (s : NotesState) (id : String) :
      Reachable s → Reachable (removeNote s id)
  | wipe (s : NotesState) :
      Reachable s → Reachable (clearNotes s)
  | select (s : NotesState) (oid : Option String) :
      Reachable s → Reachable (selectNote s oid)

/-- The non-lifecycle fields of a note (everything but `launchInfo`). -/
def noteFrame (n : ProcessedNote) :
    String × String × NFeExtractResponse × Nat × Option NoteFilialInfo :=
  (n.id, n.filename, n.data, n.processedAt, n.filial)

/-- A payload whose buyer tax id resolves to the Capim Grosso unit. -/
def goodData : NFeExtractResponse :=
  ⟨some ⟨some "11858570000303", none, none, none⟩, none, "g"⟩

/-- A payload whose buyer tax id resolves to no cataloged unit. -/
def badData : NFeExtractResponse :=
  ⟨some ⟨some "00000000000000", none, none, none⟩, none, "b"⟩

/-- A store holding a single pending note with id `"a"`. -/
def demoState : NotesState := ⟨[mkNote "a" "a.xml" goodData 0], none⟩

/-- Reject, then launch, the same note: the spread keeps the stale
rejection fields alongside the launch fields. -/
def leakState : NotesState :=
  markAsLaunched
    (markAsRejected (addNote NotesState.init "a.xml" goodData "a" 0) "a" "bad" none 1)
    "a" none none 2

/-- A catalog with a code-1 unit but zero headquarters-typed units. -/
def noMatrizCatalog : List Filial :=
  [⟨1, "A", "00000000000001", "00.000.000/0000-01", "X", "BA", .hospital⟩,
   ⟨2, "B", "00000000000002", "00.000.000/0000-02", "Y", "BA", .hospital⟩]

/-- A note lacking a `launchInfo` record, as restored from an old
persisted snapshot. -/
def legacyNote : ProcessedNote :=
  { mkNote "old" "old.xml" goodData 0 with launchInfo := none }

/-- A store mixing a legacy note (no `launchInfo`) with a fresh pending
note. -/
def legacyState : NotesState := ⟨[legacyNote, mkNote "b" "b.xml" goodData 1], none⟩

/-- Ingest one note and launch it, sticking to the documented edges. -/
def launchedDemo : NotesState :=
  markAsLaunched (addNote NotesState.init "a.xml" goodData "a" 0) "a"
    (some "op") (some "ok") 1

/-! ## Helper lemmas -/

lemma mapGet_mem {m : List (String × Filial)} {k : String} {v : Filial}
    (h : mapGet m k = some v) : (k, v) ∈ m := by
  unfold mapGet at h
  cases hf : m.find? (fun p => p.1 == k) with
  | none => rw [hf] at h; simp at h
  | some p =>
    rw [hf] at h
    have hmem := List.mem_of_find?_eq_some hf
    have hpred := List.find?_some hf
    have hk : p.1 = k := by simpa using hpred
    have hv : p.2 = v := by simpa using h
    obtain ⟨k', v'⟩ := p
    simp only at hk hv
    rw [hk, hv] at hmem
    exact hmem

/-- Every entry of the compiled index maps a cataloged unit's own tax id
to that unit. -/
lemma index_entries_sound :
    ∀ p ∈ cnpjToFilialMap, p.2 ∈ FILIAIS ∧ p.2.cnpj = p.1 := by decide

/-- Units whose tax id is borne by exactly one catalog entry are indexed
under their own (nonempty) id. -/
lemma index_unique_ids :
    ∀ u ∈ FILIAIS, (FILIAIS.filter (fun f => f.cnpj == u.cnpj)).length = 1 →
      mapGet cnpjToFilialMap u.cnpj = some u ∧ ¬u.cnpj = "" := by decide

/-! ## Claims -/

/-- C1: resolution precedence.  For every tax id string `t`: a normalized
form equal to the headquarters' tax id resolves to the headquarters (code
1, type matriz), never to one of the units sharing that id; a normalized
form equal to the unique tax id of exactly one unit resolves to that
unit; a normalized form matching no cataloged unit resolves to `null`. -/
theorem getFilialByCnpj_resolution (t : String) :
    (matrizUnit.codigo = 1 ∧ matrizUnit.tipo = .matriz) ∧
    (normalizeCnpj (some t) = CNPJ_MATRIZ →
      getFilialByCnpj (some t) = some matrizUnit) ∧
    (∀ u ∈ FILIAIS, (FILIAIS.filter (fun f => f.cnpj == u.cnpj)).length = 1 →
      normalizeCnpj (some t) = u.cnpj → getFilialByCnpj (some t) = some u) ∧
    ((∀ u ∈ FILIAIS, normalizeCnpj (some t) ≠ u.cnpj) →
      getFilialByCnpj (some t) = none) := by
  refine ⟨⟨rfl, rfl⟩, ?_, ?_, ?_⟩
  · intro ht
    simp only [getFilialByCnpj, ht]
    decide
  · intro u hu hcount ht
    obtain ⟨hget, hne⟩ := index_unique_ids u hu hcount
    simp only [getFilialByCnpj, ht, if_neg hne]
    exact hget
  · intro h
    by_cases hn : normalizeCnpj (some t) = ""
    · simp [getFilialByCnpj, hn]
    · simp only [getFilialByCnpj, if_neg hn]
      cases hv : mapGet cnpjToFilialMap (normalizeCnpj (some t)) with
      | none => rfl
      | some v =>
        exfalso
        have hmem := mapGet_mem hv
        obtain ⟨hvF, hvc⟩ := index_entries_sound _ hmem
        exact h v hvF (by rw [hvc])

theorem getFilialByCnpj_resolution_witness :
    getFilialByCnpj (some "11.858.570/0001-33") = some matrizUnit ∧
    getFilialByCnpj (some "11.858.570/0003-03") =
      some ⟨2, "Hospital de Capim Grosso", "11858570000303", "11.858.570/0003-03",
        "Capim Grosso", "BA", .hospital⟩ ∧
    getFilialByCnpj (some "00000000000000") = none :=
  ⟨(getFilialByCnpj_resolution "11.858.570/0001-33").2.1 (by decide),
   (getFilialByCnpj_resolution "11.858.570/0003-03").2.2.1
     ⟨2, "Hospital de Capim Grosso", "11858570000303", "11.858.570/0003-03",
       "Capim Grosso", "BA", .hospital⟩ (by decide) (by decide) (by decide),
   (getFilialByCnpj_resolution "00000000000000").2.2.2 (by decide)⟩

/-- C5: there is no startup headquarters-count check.  As amended:
`getHeadquarters` succeeds exactly when some unit carries code 1 — the
unit type is never consulted — and in the shipped catalog exactly one
unit has the headquarters type, the code-1 one. -/
theorem getMatrizOf_code_lookup (catalog : List Filial) :
    ((getMatrizOf catalog).isSome ↔ ∃ f ∈ catalog, f.codigo = 1) ∧
    (∀ f, getMatrizOf catalog = some f → f ∈ catalog ∧ f.codigo = 1) ∧
    (FILIAIS.filter (fun f => f.tipo == FilialTipo.matriz)).length = 1 ∧
    getMatriz = some matrizUnit := by
  refine ⟨?_, ?_, by decide, by decide⟩
  · rw [getMatrizOf, List.find?_isSome]
    simp
  · intro f hf
    exact ⟨List.mem_of_find?_eq_some hf, by simpa using List.find?_some hf⟩

theorem getMatrizOf_code_lookup_witness :
    matrizUnit ∈ FILIAIS ∧ matrizUnit.codigo = 1 :=
  (getMatrizOf_code_lookup FILIAIS).2.1 matrizUnit (by decide)

/-- C5 counterexample: on a catalog with zero headquarters-typed units,
nothing fails — the index builds and `getMatriz` still returns a unit. -/
theorem getMatriz_unchecked_cex :
    (noMatrizCatalog.filter (fun f => f.tipo == FilialTipo.matriz)).length = 0 ∧
    (getMatrizOf noMatrizCatalog).isSome = true ∧
    buildIndexOf noMatrizCatalog =
      [("00000000000001", noMatrizCatalog.get ⟨0, by decide⟩),
       ("00000000000002", noMatrizCatalog.get ⟨1, by decide⟩)] := by
  decide

/-- Projecting the built notes entrywise: any projection of `mkNotes`
that ignores the generated id factors through the entries. -/
lemma mkNotes_map {β : Type} (gen : Nat → String) (now : Nat)
    (f : ProcessedNote → β) (g : String × NFeExtractResponse → β)
    (hfg : ∀ id e, f (mkNote id e.1 e.2 now) = g e) :
    ∀ (entries : List (String × NFeExtractResponse)) (i : Nat),
      (mkNotes gen i entries now).map f = entries.map g := by
  intro entries
  induction entries with
  | nil => intro i; rfl
  | cons e rest ih =>
    intro i
    simp only [mkNotes, List.map_cons, hfg (gen i) e, ih (i + 1)]

lemma mkNotes_length (gen : Nat → String) (now : Nat) :
    ∀ (entries : List (String × NFeExtractResponse)) (i : Nat),
      (mkNotes gen i entries now).length = entries.length := by
  intro entries
  induction entries with
  | nil => intro i; rfl
  | cons e rest ih => intro i; simp only [mkNotes, List.length_cons, ih (i + 1)]

/-- C4 (amended): batch ingestion appends one pending note per entry, in
input order — an entry whose tax id fails to resolve is still ingested,
with a `null` resolved unit; nothing is returned and no failure list is
produced. -/
theorem addNotes_appends_all (s : NotesState)
    (entries : List (String × NFeExtractResponse)) (gen : Nat → String) (now : Nat) :
    ((addNotes s entries gen now).notes.map (fun n => n.filename)
        = s.notes.map (fun n => n.filename) ++ entries.map (fun e => e.1)) ∧
    ((addNotes s entries gen now).notes.map (fun n => n.filial)
        = s.notes.map (fun n => n.filial)
          ++ entries.map (fun e => identifyFilial (e.2.dest.bind (fun d => d.doc)))) ∧
    ((addNotes s entries gen now).notes.map (fun n => n.launchInfo)
        = s.notes.map (fun n => n.launchInfo)
          ++ entries.map (fun _ => some (NoteLaunchInfo.fresh .pending))) ∧
    (addNotes s entries gen now).notes.length = s.notes.length + entries.length := by
  refine ⟨?_, ?_, ?_, ?_⟩
  · rw [addNotes, List.map_append, mkNotes_map gen now _ _ (fun id e => rfl)]
  · rw [addNotes, List.map_append, mkNotes_map gen now _ _ (fun id e => rfl)]; rfl
  · rw [addNotes, List.map_append, mkNotes_map gen now _ _ (fun id e => rfl)]
  · rw [addNotes, List.length_append, mkNotes_length gen now]

/-- C4 counterexample: of two entries with the second unresolvable, both
are ingested (2 notes, not 1), the unresolvable one with `filial = none`,
and no failure report exists. -/
theorem addNotes_appends_all_cex :
    identifyFilial (badData.dest.bind (fun d => d.doc)) = none ∧
    (addNotes NotesState.init [("a.xml", goodData), ("b.xml", badData)]
        (fun i => toString i) 0).notes.length = 2 ∧
    (addNotes NotesState.init [("a.xml", goodData), ("b.xml", badData)]
        (fun i => toString i) 0).notes.map (fun n => (n.filename, n.filial.isSome))
      = [("a.xml", true), ("b.xml", false)] := by
  decide

lemma map_update_noop {l : List ProcessedNote} {id : String}
    (g : ProcessedNote → ProcessedNote)
    (h : ∀ n ∈ l, n.id ≠ id) :
    l.map (fun n => if n.id = id then g n else n) = l := by
  induction l with
  | nil => rfl
  | cons a l ih =>
    simp only [List.map_cons]
    rw [if_neg (h a (List.mem_cons_self a l)),
      ih (fun n hn => h n (List.mem_cons_of_mem a hn))]

/-- C6 (amended): launch, reject and reset on an id absent from the
collection are silent no-ops — the state (collection and selection) is
returned unchanged, and no error of any kind is signalled. -/
theorem lifecycle_unknown_id_noop (s : NotesState) (id reason : String)
    (op obs : Option String) (t : Nat) (h : ∀ n ∈ s.notes, n.id ≠ id) :
    markAsLaunched s id op obs t = s ∧
    markAsRejected s id reason op t = s ∧
    resetLaunchStatus s id = s := by
  obtain ⟨notes, sel⟩ := s
  refine ⟨?_, ?_, ?_⟩ <;>
    simp only [markAsLaunched, markAsRejected, resetLaunchStatus] <;>
    exact congrArg (NotesState.mk · sel) (map_update_noop _ h)

theorem lifecycle_unknown_id_noop_witness :
    markAsLaunched demoState "zz" none none 5 = demoState ∧
    markAsRejected demoState "zz" "r" none 5 = demoState ∧
    resetLaunchStatus demoState "zz" = demoState :=
  lifecycle_unknown_id_noop demoState "zz" "r" none none 5 (by decide)

/-- C6 counterexample: the operations do not fail on an unknown id — each
returns normally (with the state unchanged), so no `NotFound` error is
surfaced to the caller. -/
theorem lifecycle_unknown_id_no_error_cex :
    resetLaunchStatus demoState "zz" = demoState ∧
    (markAsLaunched demoState "zz" none none 5).notes.length = 1 := by
  decide

lemma map_frame_congr (l : List ProcessedNote) (u : ProcessedNote → ProcessedNote)
    (h : ∀ n, noteFrame (u n) = noteFrame n) :
    (l.map u).map noteFrame = l.map noteFrame := by
  induction l with
  | nil => rfl
  | cons a l ih => simp only [List.map_cons, h a, ih]

/-- C7: the resolved org unit is computed exactly once, at ingestion,
from the payload's buyer tax id; launch, reject and reset leave every
non-lifecycle field (id, filename, payload, receivedAt, resolved unit)
of every note untouched. -/
theorem lifecycle_preserves_nonlifecycle_fields (s : NotesState)
    (id reason filename nid : String) (op obs : Option String) (t t2 : Nat)
    (data : NFeExtractResponse) :
    ((markAsLaunched s id op obs t).notes.map noteFrame = s.notes.map noteFrame) ∧
    ((markAsRejected s id reason op t).notes.map noteFrame = s.notes.map noteFrame) ∧
    ((resetLaunchStatus s id).notes.map noteFrame = s.notes.map noteFrame) ∧
    ((addNote s filename data nid t2).notes.map (fun n => n.filial)
      = s.notes.map (fun n => n.filial)
        ++ [identifyFilial (data.dest.bind (fun d => d.doc))]) := by
  refine ⟨?_, ?_, ?_, ?_⟩
  · exact map_frame_congr s.notes _
      (fun n => by by_cases h : n.id = id <;> simp [noteFrame, h])
  · exact map_frame_congr s.notes _
      (fun n => by by_cases h : n.id = id <;> simp [noteFrame, h])
  · exact map_frame_congr s.notes _
      (fun n => by by_cases h : n.id = id <;> simp [noteFrame, h])
  · simp [addNote, mkNote]

/-- C8: the selection cursor never survives pointing at a removed id —
removing the selected note unsets the selection, removing anything else
keeps the cursor off the removed id, and `clear` always unsets it. -/
theorem selection_never_dangling (s : NotesState) (id : String) :
    ((removeNote s id).selectedNoteId ≠ some id) ∧
    (s.selectedNoteId = some id → (removeNote s id).selectedNoteId = none) ∧
    (∀ n ∈ (removeNote s id).notes, n.id ≠ id) ∧
    (clearNotes s).selectedNoteId = none ∧ (clearNotes s).notes = [] := by
  refine ⟨?_, ?_, ?_, rfl, rfl⟩
  · by_cases h : s.selectedNoteId = some id
    · simp [removeNote, h]
    · simp only [removeNote, if_neg h]
      exact h
  · intro h
    simp [removeNote, h]
  · intro n hn
    have := List.mem_filter.mp hn
    simpa using this.2

theorem selection_never_dangling_witness :
    (removeNote ⟨demoState.notes, some "a"⟩ "a").selectedNoteId = none :=
  (selection_never_dangling ⟨demoState.notes, some "a"⟩ "a").2.1 rfl

/-- C3 (amended): `markAsRejected` performs no validation of the reason —
for every reason, including the empty or all-whitespace one, a note with
the given id is rewritten to status Rejected carrying that very reason
(the calling page merely skips the call silently on a blank reason; no
`InvalidArgument` is ever produced). -/
theorem markAsRejected_no_validation (s : NotesState) (id reason : String)
    (op : Option String) (t : Nat) (n : ProcessedNote)
    (hn : n ∈ s.notes) (hid : n.id = id) :
    { n with launchInfo := some (rejectUpdate n.launchInfo reason op t) }
        ∈ (markAsRejected s id reason op t).notes ∧
    (rejectUpdate n.launchInfo reason op t).status = .rejected ∧
    (rejectUpdate n.launchInfo reason op t).rejectionReason = some reason ∧
    (rejectUpdate n.launchInfo reason op t).rejectedAt = some t := by
  refine ⟨?_, rfl, rfl, rfl⟩
  have key : (fun m => if m.id = id
        then { m with launchInfo := some (rejectUpdate m.launchInfo reason op t) }
        else m) n
      = { n with launchInfo := some (rejectUpdate n.launchInfo reason op t) } := by
    simp only [if_pos hid]
  exact key ▸ List.mem_map_of_mem _ hn

theorem markAsRejected_no_validation_witness :
    { mkNote "a" "a.xml" goodData 0 with
        launchInfo := some (rejectUpdate (mkNote "a" "a.xml" goodData 0).launchInfo " " none 3) }
      ∈ (markAsRejected demoState "a" " " none 3).notes ∧
    (rejectUpdate (mkNote "a" "a.xml" goodData 0).launchInfo " " none 3).status = .rejected ∧
    (rejectUpdate (mkNote "a" "a.xml" goodData 0).launchInfo " " none 3).rejectionReason
      = some " " ∧
    (rejectUpdate (mkNote "a" "a.xml" goodData 0).launchInfo " " none 3).rejectedAt = some 3 :=
  markAsRejected_no_validation demoState "a" " " none 3 (mkNote "a" "a.xml" goodData 0)
    (by decide) rfl

/-- C3 counterexample: rejecting with the empty reason mutates the store —
the note's status flips to Rejected with the empty reason recorded, so the
operation neither fails with `InvalidArgument` nor leaves fields
unchanged. -/
theorem markAsRejected_empty_reason_mutates_cex :
    markAsRejected demoState "a" "" none 7 ≠ demoState ∧
    (markAsRejected demoState "a" "" none 7).notes.map
        (fun n => (n.launchInfo.map (fun li => li.status),
          n.launchInfo.bind (fun li => li.rejectionReason)))
      = [(some .rejected, some "")] := by
  decide

/-- C9: the dashboard progress is `round(launched / total * 100)` with
JS `Math.round` semantics, is `0` for the empty collection (the division
is never evaluated there), and always lies between 0 and 100. -/
theorem progressPercentage_round (s : NotesState) :
    (0 < s.notes.length →
      progressPercentage s
        = jsRound (((getLaunchedNotes s).length : ℚ) / (s.notes.length : ℚ) * 100)) ∧
    (s.notes.length = 0 → progressPercentage s = 0) ∧
    progressPercentage NotesState.init = 0 ∧
    0 ≤ progressPercentage s ∧ progressPercentage s ≤ 100 := by
  refine ⟨fun h => by simp [progressPercentage, h], fun h => by simp [progressPercentage, h],
    rfl, ?_, ?_⟩ <;> by_cases h : 0 < s.notes.length
  · simp only [progressPercentage, if_pos h, jsRound]
    have hq0 : (0:ℚ) ≤ ((getLaunchedNotes s).length : ℚ) / (s.notes.length : ℚ) * 100 := by
      positivity
    exact Int.le_floor.mpr (by push_cast; linarith)
  · simp [progressPercentage, h]
  · simp only [progressPercentage, if_pos h, jsRound]
    have hT : (0:ℚ) < (s.notes.length : ℚ) := by exact_mod_cast h
    have hLT : (getLaunchedNotes s).length ≤ s.notes.length :=
      List.length_filter_le _ _
    have hdiv : ((getLaunchedNotes s).length : ℚ) / (s.notes.length : ℚ) ≤ 1 := by
      rw [div_le_one hT]
      exact_mod_cast hLT
    have h100 : ⌊(100:ℚ) + 1/2⌋ = (100:ℤ) := by
      rw [Int.floor_eq_iff]
      constructor <;> norm_num
    calc ⌊((getLaunchedNotes s).length : ℚ) / (s.notes.length : ℚ) * 100 + 1/2⌋
        ≤ ⌊(100:ℚ) + 1/2⌋ := Int.floor_le_floor (by nlinarith)
      _ = 100 := h100
  · simp [progressPercentage, h]

theorem progressPercentage_round_witness :
    progressPercentage launchedDemo
      = jsRound (((getLaunchedNotes launchedDemo).length : ℚ)
          / (launchedDemo.notes.length : ℚ) * 100) ∧
    progressPercentage NotesState.init = 0 :=
  ⟨(progressPercentage_round launchedDemo).1 (by decide),
   (progressPercentage_round NotesState.init).2.1 rfl⟩

lemma statusIs_iff (n : ProcessedNote) (st : NoteLaunchStatus) :
    n.statusIs st = true ↔ ∃ li, n.launchInfo = some li ∧ li.status = st := by
  cases h : n.launchInfo with
  | none => simp [ProcessedNote.statusIs, h]
  | some li => simp [ProcessedNote.statusIs, h]

/-- C10: the pending projection returns exactly the notes whose lifecycle
record is absent or has status pending; the launched and rejected
projections require the strict respective status; all three are
order-preserving sublists of the collection. -/
theorem getters_status_projection (s : NotesState) (n : ProcessedNote) :
    (n ∈ getPendingNotes s ↔ n ∈ s.notes ∧
      (n.launchInfo = none ∨ ∃ li, n.launchInfo = some li ∧ li.status = .pending)) ∧
    (n ∈ getLaunchedNotes s ↔ n ∈ s.notes ∧
      ∃ li, n.launchInfo = some li ∧ li.status = .launched) ∧
    (n ∈ getRejectedNotes s ↔ n ∈ s.notes ∧
      ∃ li, n.launchInfo = some li ∧ li.status = .rejected) ∧
    (getPendingNotes s).Sublist s.notes ∧ (getLaunchedNotes s).Sublist s.notes ∧
    (getRejectedNotes s).Sublist s.notes := by
  refine ⟨?_, ?_, ?_, List.filter_sublist s.notes, List.filter_sublist s.notes,
    List.filter_sublist s.notes⟩
  · rw [getPendingNotes, List.mem_filter]
    simp only [Bool.or_eq_true, statusIs_iff, Option.isNone_iff_eq_none]
    exact and_congr_right fun _ => or_comm
  · rw [getLaunchedNotes, List.mem_filter]
    simp only [statusIs_iff]
  · rw [getRejectedNotes, List.mem_filter]
    simp only [statusIs_iff]

theorem getters_status_projection_witness :
    legacyNote ∈ getPendingNotes legacyState :=
  (getters_status_projection legacyState legacyNote).1.mpr
    ⟨by decide, Or.inl rfl⟩

lemma wfInfo_fresh_pending : wfInfo (NoteLaunchInfo.fresh .pending) := by
  refine ⟨fun _ => rfl, fun h => ?_, fun h => ?_⟩ <;> cases h

lemma wfInfo_launchUpdate (li : Option NoteLaunchInfo) (op obs : Option String) (t : Nat)
    (hw : ∀ x, li = some x → wfInfo x)
    (hst : li.map NoteLaunchInfo.status ≠ some .rejected) :
    wfInfo (launchUpdate li op obs t) := by
  refine ⟨?_, ?_, ?_⟩
  · intro h; cases h
  case refine_3 => intro h; cases h
  intro _
  refine ⟨rfl, ?_⟩
  show (spreadBase li).rejectedAt = none ∧ (spreadBase li).rejectedBy = none ∧
    (spreadBase li).rejectionReason = none
  cases li with
  | none => exact ⟨rfl, rfl, rfl⟩
  | some x =>
    have hwx := hw x rfl
    cases hs : x.status with
    | pending => rw [show spreadBase (some x) = x from rfl, hwx.1 hs]; exact ⟨rfl, rfl, rfl⟩
    | launched => exact (hwx.2.1 hs).2
    | rejected => exact absurd (by simp [hs]) hst

lemma wfInfo_rejectUpdate (li : Option NoteLaunchInfo) (reason : String)
    (op : Option String) (t : Nat)
    (hw : ∀ x, li = some x → wfInfo x)
    (hst : li.map NoteLaunchInfo.status ≠ some .launched) :
    wfInfo (rejectUpdate li reason op t) := by
  refine ⟨?_, ?_, ?_⟩
  · intro h; cases h
  · intro h; cases h
  intro _
  refine ⟨rfl, rfl, ?_⟩
  show (spreadBase li).launchedAt = none ∧ (spreadBase li).launchedBy = none ∧
    (spreadBase li).obs = none
  cases li with
  | none => exact ⟨rfl, rfl, rfl⟩
  | some x =>
    have hwx := hw x rfl
    cases hs : x.status with
    | pending => rw [show spreadBase (some x) = x from rfl, hwx.1 hs]; exact ⟨rfl, rfl, rfl⟩
    | launched => exact absurd (by simp [hs]) hst
    | rejected => exact (hwx.2.2 hs).2.2

lemma mkNotes_launchInfo (gen : Nat → String) (now : Nat) :
    ∀ (entries : List (String × NFeExtractResponse)) (i : Nat), ∀ n ∈ mkNotes gen i entries now,
      n.launchInfo = some (NoteLaunchInfo.fresh .pending) := by
  intro entries
  induction entries with
  | nil => intro i n hn; cases hn
  | cons e rest ih =>
    intro i n hn
    rcases List.mem_cons.mp hn with h1 | h2
    · rw [h1]; rfl
    · exact ih (i + 1) n h2

/-- C2 (amended): along every operation sequence that respects the
documented state-machine edges — launch and reject are never applied to a
document currently in the opposite terminal status — every document's
lifecycle record populates exactly the fields of its current status
(operator name / remarks only when supplied at the transition).  Without
that restriction the claim fails: see the counterexample. -/
theorem lifecycle_status_fields_invariant (s : NotesState) (h : Reachable s) :
    ∀ n ∈ s.notes, wfNote n := by
  induction h with
  | init => intro n hn; cases hn
  | add s' fn d id t _ ih =>
    intro n hn
    replace hn : n ∈ s'.notes ++ [mkNote id fn d t] := hn
    rcases List.mem_append.mp hn with h1 | h2
    · exact ih n h1
    · have hn2 : n = mkNote id fn d t := by simpa using h2
      intro li hli
      rw [hn2] at hli
      cases hli
      exact wfInfo_fresh_pending
  | addMany s' entries gen t _ ih =>
    intro n hn
    replace hn : n ∈ s'.notes ++ mkNotes gen 0 entries t := hn
    rcases List.mem_append.mp hn with h1 | h2
    · exact ih n h1
    · intro li hli
      rw [mkNotes_launchInfo gen t entries 0 n h2] at hli
      cases hli
      exact wfInfo_fresh_pending
  | launch s' id op obs t _ hguard ih =>
    intro n hn
    replace hn : n ∈ s'.notes.map (fun m =>
        if m.id = id then { m with launchInfo := some (launchUpdate m.launchInfo op obs t) }
        else m) := hn
    obtain ⟨m, hm, rfl⟩ := List.mem_map.mp hn
    by_cases hmid : m.id = id
    · simp only [if_pos hmid]
      intro li hli
      cases hli
      exact wfInfo_launchUpdate m.launchInfo op obs t (fun x hx => ih m hm x hx)
        (hguard m hm hmid)
    · simp only [if_neg hmid]
      exact ih m hm
  | reject s' id reason op t _ hguard ih =>
    intro n hn
    replace hn : n ∈ s'.notes.map (fun m =>
        if m.id = id then { m with launchInfo := some (rejectUpdate m.launchInfo reason op t) }
        else m) := hn
    obtain ⟨m, hm, rfl⟩ := List.mem_map.mp hn
    by_cases hmid : m.id = id
    · simp only [if_pos hmid]
      intro li hli
      cases hli
      exact wfInfo_rejectUpdate m.launchInfo reason op t (fun x hx => ih m hm x hx)
        (hguard m hm hmid)
    · simp only [if_neg hmid]
      exact ih m hm
  | reset s' id _ ih =>
    intro n hn
    replace hn : n ∈ s'.notes.map (fun m =>
        if m.id = id then { m with launchInfo := some (NoteLaunchInfo.fresh .pending) }
        else m) := hn
    obtain ⟨m, hm, rfl⟩ := List.mem_map.mp hn
    by_cases hmid : m.id = id
    · simp only [if_pos hmid]
      intro li hli
      cases hli
      exact wfInfo_fresh_pending
    · simp only [if_neg hmid]
      exact ih m hm
  | drop s' id _ ih =>
    intro n hn
    replace hn : n ∈ s'.notes.filter (fun m => m.id ≠ id) := hn
    exact ih n (List.mem_filter.mp hn).1
  | wipe s' _ _ =>
    intro n hn
    cases hn
  | select s' oid _ ih =>
    intro n hn
    exact ih n hn

theorem lifecycle_status_fields_invariant_witness :
    (launchUpdate (some (NoteLaunchInfo.fresh .pending)) (some "op") (some "ok") 1).launchedAt.isSome
      = true ∧
    (launchUpdate (some (NoteLaunchInfo.fresh .pending)) (some "op") (some "ok") 1).rejectedAt
      = none ∧
    (launchUpdate (some (NoteLaunchInfo.fresh .pending)) (some "op") (some "ok") 1).rejectionReason
      = none := by
  have hw := lifecycle_status_fields_invariant launchedDemo
    (Reachable.launch _ "a" (some "op") (some "ok") 1
      (Reachable.add _ "a.xml" goodData "a" 0 Reachable.init) (by decide))
    { mkNote "a" "a.xml" goodData 0 with
        launchInfo := some (launchUpdate (some (NoteLaunchInfo.fresh .pending))
          (some "op") (some "ok") 1) }
    (by decide)
  have hli := hw (launchUpdate (some (NoteLaunchInfo.fresh .pending)) (some "op") (some "ok") 1) rfl
  exact ⟨(hli.2.1 rfl).1, (hli.2.1 rfl).2.1, (hli.2.1 rfl).2.2.2⟩

/-- C2 counterexample: ingest, reject, then launch the same note — a
sequence of the claimed operations — leaves a Launched document that
still carries `rejectedAt` and `rejectionReason` from the spread of the
previous record. -/
theorem lifecycle_status_fields_cex :
    leakState.notes.map (fun n => n.launchInfo.map (fun li => li.status))
      = [some .launched] ∧
    leakState.notes.map (fun n => n.launchInfo.bind (fun li => li.rejectionReason))
      = [some "bad"] ∧
    leakState.notes.map (fun n => n.launchInfo.bind (fun li => li.rejectedAt))
      = [some 1] := by
  decide

end NfseAnalyzer
